import Mathlib

/-
Verification development for the go-termfmt terminal formatting library.

Modelling conventions:
  - Go strings are modelled as Lean Strings, i.e. sequences of characters;
    the length functions count characters, which agrees with Go byte length
    on the ASCII inputs the properties below quantify over.
  - Go ints are modelled as Int (no claim depends on 64-bit overflow).
  - Go float64 arithmetic (only divisions and multiplications of small
    integers) is modelled exactly over the rationals; the conversion
    int(x) truncates toward zero, modelled by ratTrunc.
  - strings.Repeat panics when its count is negative; this is modelled by
    goRepeat returning Option String, none standing for the panic.
    Functions that can reach such a call return Option String.
  - Reading the process environment (supportsColor, supportsEmoji) is
    modelled by an explicit Boolean parameter supC and supE.
  - Go map iteration order is nondeterministic; a map value is modelled by
    the association list of its entries in some iteration order.
-/

namespace Termfmt

/-- Character repeated n times, the model of strings.Repeat on a
one-character string with a nonnegative count. -/
def repChar (c : Char) (n : Nat) : String :=
  String.mk (List.replicate n c)

/-- Model of strings.Repeat with a Go int count: Go panics when the count
is negative, modelled as none. -/
def goRepeat (s : String) (n : Int) : Option String :=
  if n < 0 then none else some (String.join (List.replicate n.toNat s))

/-- Truncation toward zero of a rational, the model of the Go conversion
int(x) applied to a float64. -/
def ratTrunc (q : ℚ) : ℤ :=
  if q < 0 then -(⌊-q⌋) else ⌊q⌋

/-- Model of strings.TrimRight(s, the newline cutset): removes every
trailing newline character. -/
def trimNL (s : String) : String :=
  String.mk ((s.data.reverse.dropWhile (fun c => c == '\n')).reverse)

/-- Joining of display rows with single newlines, used to state row-level
properties of the box renderer. -/
def unlines1 : List String → String
  | [] => ""
  | [r] => r
  | r :: r2 :: rs => r ++ "\n" ++ unlines1 (r2 :: rs)

/-- Splitting of a character list at every newline, the model of the Go
strings.Split with a newline separator: splitting the empty string gives
one empty piece, and a trailing newline gives a trailing empty piece.
The nil scrutinee in the second branch cannot occur (the recursion always
returns a nonempty list, see splitChars_ne_nil). -/
def splitCharsAux (c : Char) : List (List Char) → List (List Char)
  | [] => [[]]
  | r :: rs => if c = '\n' then [] :: r :: rs else (c :: r) :: rs

def splitChars : List Char → List (List Char)
  | [] => [[]]
  | c :: cs => splitCharsAux c (splitChars cs)

/-- Model of strings.Split(s, the newline separator). -/
def splitNL (s : String) : List String :=
  (splitChars s.data).map String.mk

/-- Model of the Go byte-slice prefix str[:n] at character level. -/
def takeChars (n : Nat) (s : String) : String :=
  String.mk (s.data.take n)

/-- TerminalOptions from formatter.go. -/
structure TerminalOptions where
  Color : Bool
  Emoji : Bool
  Width : Int
  Compact : Bool
  ShowIcons : Bool
deriving Repr, DecidableEq

/-- DefaultTerminalWidth from formatter.go. -/
def DefaultTerminalWidth : Int := 80

/-- DefaultOptions from formatter.go. -/
def DefaultOptions : TerminalOptions :=
  { Color := true, Emoji := true, Width := DefaultTerminalWidth,
    Compact := false, ShowIcons := true }

/-- UI spacing constants from components.go. -/
def borderPadding : Nat := 2

/-- Space reserved for labels in bar charts, from components.go. -/
def labelSpacing : Int := 10

/-- Space reserved for progress bar metadata, from components.go. -/
def progressSpacing : Int := 20

/-- Multiplier for percentage calculations, from components.go. -/
def percentMultiplier : ℚ := 100

/-- ANSI reset sequence from the colors file. -/
def AnsiReset : String := "\x1b[0m"

/-- ANSI style and color sequences from the colors file. -/
def AnsiBold : String := "\x1b[1m"

def AnsiDim : String := "\x1b[2m"

def AnsiItalic : String := "\x1b[3m"

def AnsiRed : String := "\x1b[31m"

def AnsiGreen : String := "\x1b[32m"

def AnsiYellow : String := "\x1b[33m"

def AnsiBlue : String := "\x1b[34m"

def AnsiMagenta : String := "\x1b[35m"

def AnsiCyan : String := "\x1b[36m"

def AnsiWhite : String := "\x1b[37m"

def AnsiBrightBlack : String := "\x1b[90m"

/-- ColorProfile from the colors file. -/
structure ColorProfile where
  Error : String
  Warning : String
  Info : String
  Success : String
  Accent : String
  Muted : String

/-- DefaultColorProfile from the colors file. -/
def DefaultColorProfile : ColorProfile :=
  { Error := AnsiRed, Warning := AnsiYellow, Info := AnsiBlue,
    Success := AnsiGreen, Accent := AnsiCyan, Muted := AnsiBrightBlack }

/-- Colorize from the colors file; supC models the supportsColor
environment probe. -/
def Colorize (text color : String) (opts : TerminalOptions) (supC : Bool) : String :=
  if !opts.Color || !supC then text else color ++ text ++ AnsiReset

/-- ColorizeWithProfile from the colors file. -/
def ColorizeWithProfile (text colorType : String) (profile : ColorProfile)
    (opts : TerminalOptions) (supC : Bool) : String :=
  if !opts.Color || !supC then text
  else if colorType = "error" then profile.Error ++ text ++ AnsiReset
  else if colorType = "warning" then profile.Warning ++ text ++ AnsiReset
  else if colorType = "info" then profile.Info ++ text ++ AnsiReset
  else if colorType = "success" then profile.Success ++ text ++ AnsiReset
  else if colorType = "accent" then profile.Accent ++ text ++ AnsiReset
  else if colorType = "muted" then profile.Muted ++ text ++ AnsiReset
  else text

/-- Translation of one case of the style switch in Stylize. -/
def styleCode (style : String) : Option String :=
  if style = "bold" then some AnsiBold
  else if style = "dim" then some AnsiDim
  else if style = "italic" then some AnsiItalic
  else if style = "red" then some AnsiRed
  else if style = "green" then some AnsiGreen
  else if style = "yellow" then some AnsiYellow
  else if style = "blue" then some AnsiBlue
  else if style = "magenta" then some AnsiMagenta
  else if style = "cyan" then some AnsiCyan
  else if style = "white" then some AnsiWhite
  else none

/-- Stylize from the colors file. -/
def Stylize (text : String) (styles : List String) (opts : TerminalOptions)
    (supC : Bool) : String :=
  if !opts.Color || !supC then text
  else
    let codes := styles.filterMap styleCode
    if codes.isEmpty then text
    else String.join codes ++ text ++ AnsiReset

/-- Header from the colors file. -/
def Header (title : String) (opts : TerminalOptions) (supC : Bool) : String :=
  if opts.Color && supC then Stylize title ["bold", "cyan"] opts supC else title

/-- Subtitle from the colors file. -/
def Subtitle (title : String) (opts : TerminalOptions) (supC : Bool) : String :=
  if opts.Color && supC then Stylize title ["bold"] opts supC else title

/-- Muted from the colors file. -/
def Muted (text : String) (opts : TerminalOptions) (supC : Bool) : String :=
  if opts.Color && supC then Stylize text ["dim"] opts supC else text

/-- Success from the colors file. -/
def Success (text : String) (opts : TerminalOptions) (supC : Bool) : String :=
  if opts.Color && supC then Stylize text ["green"] opts supC else text

/-- Warning from the colors file. -/
def Warning (text : String) (opts : TerminalOptions) (supC : Bool) : String :=
  if opts.Color && supC then Stylize text ["yellow"] opts supC else text

/-- TermError models the Error helper from the colors file (renamed to
avoid clashing with the Lean prelude). -/
def TermError (text : String) (opts : TerminalOptions) (supC : Bool) : String :=
  if opts.Color && supC then Stylize text ["red"] opts supC else text

/-- Info from the colors file. -/
def Info (text : String) (opts : TerminalOptions) (supC : Bool) : String :=
  if opts.Color && supC then Stylize text ["blue"] opts supC else text

/-- Association-list lookup, the model of a Go map access (keys are
distinct, so iteration order does not matter for lookup). -/
def goMapLookup (key : String) : List (String × String × String) → Option (String × String)
  | [] => none
  | (k, e, f) :: rest => if key = k then some (e, f) else goMapLookup key rest

/-- getEmojiMap from the colors file: entries (key, emoji, fallback). -/
def getEmojiMap : List (String × String × String) :=
  [ ("error", "❌", "[ERR]"),
    ("warning", "⚠️", "[WRN]"),
    ("info", "ℹ️", "[INF]"),
    ("success", "✅", "[OK]"),
    ("insight", "💡", "[INS]"),
    ("pattern", "🔍", "[PAT]"),
    ("statistics", "📊", "[STATS]"),
    ("recommendations", "📋", "[REC]"),
    ("rocket", "🚀", "[LOG]"),
    ("error_pattern", "🔴", "[ERR]"),
    ("anomaly_pattern", "🟡", "[ANO]"),
    ("perf_pattern", "⚠️", "[PRF]"),
    ("security_pattern", "🔒", "[SEC]"),
    ("help", "❓", "[?]"),
    ("target", "🎯", "[>]"),
    ("brain", "🧠", "[AI]"),
    ("tag", "🏷️", "[TAG]"),
    ("scale", "⚖️", "[BAL]"),
    ("door", "🚪", "[EXIT]"),
    ("number", "🔢", "[#]"),
    ("patterns", "🔍", "[PAT]"),
    ("insights", "💡", "[INS]"),
    ("clock", "⏰", "[TIME]"),
    ("chart", "📊", "[CHART]"),
    ("list", "📝", "[LIST]") ]

/-- GetEmoji from the colors file; supE models the supportsEmoji
environment probe. -/
def GetEmoji (key : String) (opts : TerminalOptions) (supE : Bool) : String :=
  match goMapLookup key getEmojiMap with
  | some (emo, fb) =>
    if !opts.Emoji then fb
    else if !supE then fb
    else emo
  | none => "[?]"

/-- GetSymbol from the colors file, an alias for GetEmoji. -/
def GetSymbol (key : String) (opts : TerminalOptions) (supE : Bool) : String :=
  GetEmoji key opts supE

/-- ConfidenceBarLength from the colors file. -/
def ConfidenceBarLength : Nat := 10

/-- CreateConfidenceBar from the colors file. -/
def CreateConfidenceBar (confidence : ℚ) (opts : TerminalOptions) (supE : Bool) : String :=
  let barLength : ℤ := ratTrunc (confidence * (ConfidenceBarLength : ℚ))
  let filled : Char := if opts.Emoji && supE then '█' else '#'
  let empty : Char := if opts.Emoji && supE then '░' else '-'
  let core : String :=
    String.mk ((List.range ConfidenceBarLength).map
      (fun i : ℕ => if (i : ℤ) < barLength then filled else empty))
  (if !opts.Emoji then "[" else "") ++ core ++ (if !opts.Emoji then "]" else "")

/-- Maximum line length scan from simpleBox and titledBox in
components.go, started from a given initial value. -/
def maxLineLen (init : Nat) (lines : List String) : Nat :=
  lines.foldl (fun m l => if l.length > m then l.length else m) init

/-- simpleBox from components.go. The padding count maxLen minus the line
length is nonnegative at every use because maxLen is the maximum of the
line lengths, so Nat subtraction agrees with the Go int subtraction. -/
def simpleBox (content : String) : String :=
  let lines := splitNL content
  if lines.isEmpty then ""
  else
    let maxLen := maxLineLen 0 lines
    "┌" ++ repChar '─' (maxLen + borderPadding) ++ "┐\n"
      ++ String.join (lines.map (fun line =>
          "│ " ++ line ++ repChar ' ' (maxLen - line.length) ++ " │\n"))
      ++ "└" ++ repChar '─' (maxLen + borderPadding) ++ "┘"

/-- titledBox from components.go. -/
def titledBox (title content : String) : String :=
  let titleLen := title.length
  let lines := splitNL content
  let maxLen := maxLineLen (titleLen + borderPadding) lines
  "╔" ++ repChar '═' (maxLen + borderPadding) ++ "╗\n"
    ++ "║ " ++ title ++ repChar ' ' (maxLen - titleLen) ++ " ║\n"
    ++ "╠" ++ repChar '═' (maxLen + borderPadding) ++ "╣\n"
    ++ String.join (lines.map (fun line =>
        "║ " ++ line ++ repChar ' ' (maxLen - line.length) ++ " ║\n"))
    ++ "╚" ++ repChar '═' (maxLen + borderPadding) ++ "╝"

/-- BoxWithOptions from components.go (the options are unused there). -/
def BoxWithOptions (title content : String) (_opts : TerminalOptions) : String :=
  if title = "" then simpleBox content else titledBox title content

/-- Box from components.go. -/
def Box (title content : String) : String :=
  BoxWithOptions title content DefaultOptions

/-- One pass of the column-width loop in TableWithOptions: each cell of
the row with an index below the number of columns bumps that column width
to at least the cell length; cells beyond the column count are ignored. -/
def bumpWidths : List Nat → List String → List Nat
  | [], _ => []
  | ws, [] => ws
  | w :: ws, c :: cs => (if c.length > w then c.length else w) :: bumpWidths ws cs

/-- Column widths of TableWithOptions: header lengths bumped by every
row. -/
def tableColWidths (headers : List String) (rows : List (List String)) : List Nat :=
  rows.foldl bumpWidths (headers.map String.length)

/-- The cell loop shared by the header row and the data rows of
TableWithOptions: cells are paired with column widths by index and cells
beyond the column count are skipped (the Go guard i less than the number
of columns). The padding is nonnegative at every call site because the
widths come from tableColWidths, which dominates every cell length. -/
def renderCells : List Nat → List String → String
  | _, [] => ""
  | [], _ :: _ => ""
  | w :: ws, c :: cs => " " ++ c ++ repChar ' ' (w - c.length) ++ " │" ++ renderCells ws cs

/-- The separator loop of TableWithOptions. -/
def sepCells : List Nat → String
  | [] => ""
  | [w] => repChar '─' (w + borderPadding)
  | w :: w2 :: ws => repChar '─' (w + borderPadding) ++ "┼" ++ sepCells (w2 :: ws)

/-- TableWithOptions from components.go. -/
def TableWithOptions (headers : List String) (rows : List (List String))
    (_opts : TerminalOptions) : String :=
  if headers.isEmpty then ""
  else
    let ws := tableColWidths headers rows
    trimNL ("│" ++ renderCells ws headers ++ "\n"
      ++ "├" ++ sepCells ws ++ "┤\n"
      ++ String.join (rows.map (fun row => "│" ++ renderCells ws row ++ "\n")))

/-- Table from components.go. -/
def Table (headers : List String) (rows : List (List String)) : String :=
  TableWithOptions headers rows DefaultOptions

/-- The max-value scan of BarChartWithOptions (Go starts from 0 and uses
a strict comparison, so negative values never win). -/
def barMaxValue (data : List (String × Int)) : Int :=
  data.foldl (fun m p => if p.2 > m then p.2 else m) 0

/-- The max-label-length scan of BarChartWithOptions. -/
def barMaxLabelLen (data : List (String × Int)) : Nat :=
  data.foldl (fun m p => if p.1.length > m then p.1.length else m) 0

/-- One output line of BarChartWithOptions; none models the
strings.Repeat panic on a negative repeat count. -/
def barEntryLine (maxValue : Int) (maxLabelLen : Nat) (barWidth : Int)
    (opts : TerminalOptions) (p : String × Int) : Option String :=
  let barLength : Int := ratTrunc ((p.2 : ℚ) / (maxValue : ℚ) * (barWidth : ℚ))
  (goRepeat (if opts.Emoji then "█" else "#") barLength).bind fun filled =>
  (goRepeat (if opts.Emoji then "░" else "-") (barWidth - barLength)).bind fun empty =>
  some (p.1 ++ repChar ' ' (maxLabelLen - p.1.length)
    ++ " │" ++ filled ++ empty ++ "│ " ++ toString p.2 ++ "\n")

/-- BarChartWithOptions from components.go. The Go map argument is
modelled by the association list of its entries in iteration order. -/
def BarChartWithOptions (data : List (String × Int)) (width : Int)
    (opts : TerminalOptions) : Option String :=
  if data.isEmpty then some ""
  else
    let maxValue := barMaxValue data
    let maxLabelLen := barMaxLabelLen data
    if maxValue = 0 then some ""
    else
      let barWidth : Int := width - (maxLabelLen : Int) - labelSpacing
      (data.mapM (barEntryLine maxValue maxLabelLen barWidth opts)).map
        (fun lines => trimNL (String.join lines))

/-- BarChart from components.go. -/
def BarChart (data : List (String × Int)) (width : Int) : Option String :=
  BarChartWithOptions data width DefaultOptions

/-- TreeItem from components.go. -/
structure TreeItem where
  Label : String
  Value : String
  Children : List TreeItem
  Last : Bool

/-- renderTreeItems from components.go. The Go loop index test
i equal to the length minus one is expressed as the tail being empty; the
caller-set Last field is never consulted. -/
def renderTreeItems : List TreeItem → String → String
  | [], _ => ""
  | item :: rest, pre =>
    let isLast := rest.isEmpty
    let itemPre : String := if isLast then "└─ " else "├─ "
    let childPre : String := if isLast then "   " else "│  "
    pre ++ itemPre ++ item.Label
      ++ (if item.Value ≠ "" then ": " ++ item.Value else "")
      ++ "\n"
      ++ (if item.Children.isEmpty then "" else renderTreeItems item.Children (pre ++ childPre))
      ++ renderTreeItems rest pre
termination_by items _ => sizeOf items
decreasing_by
  all_goals cases item
  all_goals simp
  all_goals omega

/-- TreeViewWithOptions from components.go. -/
def TreeViewWithOptions (items : List TreeItem) (_opts : TerminalOptions) : String :=
  trimNL (renderTreeItems items "")

/-- TreeView from components.go. -/
def TreeView (items : List TreeItem) : String :=
  TreeViewWithOptions items DefaultOptions

/-- Rounding to the nearest integer with ties to even, used to model the
Go format verb for a float with one fractional digit. -/
def roundHalfEven (q : ℚ) : ℤ :=
  if Int.fract q < 1 / 2 then ⌊q⌋
  else if Int.fract q > 1 / 2 then ⌊q⌋ + 1
  else if ⌊q⌋ % 2 = 0 then ⌊q⌋ else ⌊q⌋ + 1

/-- Model of the Go format verb printing a float with one fractional
digit, applied to an exact rational. -/
def fmtF1 (q : ℚ) : String :=
  let n := roundHalfEven (q * 10)
  (if n < 0 then "-" else "") ++ toString (n.natAbs / 10) ++ "." ++ toString (n.natAbs % 10)

/-- ProgressBarWithOptions from components.go; none models the
strings.Repeat panic on a negative repeat count. -/
def ProgressBarWithOptions (current total width : Int)
    (opts : TerminalOptions) : Option String :=
  if total ≤ 0 then some ""
  else
    let pct0 : ℚ := (current : ℚ) / (total : ℚ)
    let pct : ℚ := if pct0 > 1 then 1 else pct0
    let barWidth : Int := width - progressSpacing
    let filledWidth : Int := ratTrunc (pct * (barWidth : ℚ))
    (goRepeat (if opts.Emoji then "█" else "#") filledWidth).bind fun filled =>
    (goRepeat (if opts.Emoji then "░" else "-") (barWidth - filledWidth)).bind fun empty =>
    some ("[" ++ filled ++ empty ++ "] " ++ fmtF1 (pct * percentMultiplier)
      ++ "% (" ++ toString current ++ "/" ++ toString total ++ ")")

/-- ProgressBar from components.go. -/
def ProgressBar (current total width : Int) : Option String :=
  ProgressBarWithOptions current total width DefaultOptions

/-- MaxFieldLength from terminal.go. -/
def MaxFieldLength : Nat := 50

/-- Escaping of one character under the Go quoting verb. Quote,
backslash and the common control characters are escaped exactly as Go
does; other characters (all the properties below quantify over printable
ASCII) are kept as themselves. -/
def goEscapeChar (c : Char) : String :=
  if c = '"' then "\\\""
  else if c = '\\' then "\\\\"
  else if c = '\n' then "\\n"
  else if c = '\t' then "\\t"
  else if c = '\r' then "\\r"
  else String.singleton c

/-- Escaped body of a quoted literal, by recursion on the characters. -/
def goQuoteBody : List Char → String
  | [] => ""
  | c :: cs => goEscapeChar c ++ goQuoteBody cs

/-- Model of the Go quoting verb: the escaped body wrapped in double
quotes. -/
def goQuote (s : String) : String :=
  "\"" ++ goQuoteBody s.data ++ "\""

/-- formatStringValue from terminal.go (the truncation step followed by
quoting). -/
def formatStringValue (str : String) : String :=
  goQuote (if str.length > MaxFieldLength
    then (takeChars (MaxFieldLength - 3) str) ++ "..."
    else str)

/-- Display view of a record field value, the model of the reflect.Value
kinds distinguished by formatFieldValue in terminal.go. Slices, arrays
and maps only contribute their length there, so the model stores the
length; a nested record stores its type name and its exported fields. -/
inductive FieldVal where
  | fstr (s : String)
  | fint (n : Int)
  | ffloat2 (f : String)
  | fbool (b : Bool)
  | fsliceLen (n : Nat)
  | fmapLen (n : Nat)
  | fnil
  | fstructV (name : String) (fields : List (String × FieldVal))

/-- formatFieldValue from terminal.go. The float case keeps the already
formatted two-decimal text (no claim depends on float formatting). -/
def formatFieldValue (opts : TerminalOptions) (supC : Bool) : FieldVal → String
  | .fstr s => formatStringValue s
  | .fint n => toString n
  | .ffloat2 f => f
  | .fbool b => if b then Success "true" opts supC else Muted "false" opts supC
  | .fsliceLen n => "[" ++ toString n ++ " items]"
  | .fmapLen n => "\x7b" ++ toString n ++ " keys\x7d"
  | .fnil => Muted "nil" opts supC
  | .fstructV name _ => "\x7b" ++ name ++ "\x7d"

/-- structToTreeItems from terminal.go over the exported fields of a
record: each field becomes a TreeItem whose Last flag marks the final
field, and a nested record contributes its own fields as children. -/
def structToTreeItems (opts : TerminalOptions) (supC : Bool) :
    List (String × FieldVal) → List TreeItem
  | [] => []
  | (name, fv) :: rest =>
    { Label := name,
      Value := formatFieldValue opts supC fv,
      Children :=
        match fv with
        | .fstructV _ nested => structToTreeItems opts supC nested
        | _ => [],
      Last := rest.isEmpty } :: structToTreeItems opts supC rest
termination_by fields => sizeOf fields
decreasing_by
  all_goals simp
  all_goals omega

/-- formatStruct from terminal.go: header line with the type name (or
Data when anonymous), a dash underline, then the field tree. -/
def formatStruct (opts : TerminalOptions) (supC : Bool)
    (name : String) (fields : List (String × FieldVal)) : String :=
  let structName := if name = "" then "Data" else name
  Header structName opts supC ++ "\n"
    ++ repChar '─' structName.length ++ "\n\n"
    ++ TreeViewWithOptions (structToTreeItems opts supC fields) opts

/-- Model of a Go interface value handed to Format: the dynamic types its
switch in terminal.go distinguishes. A Go map value is modelled by the
association list of its entries in iteration order. -/
inductive GoValue where
  | goNil
  | str (s : String)
  | mapSI (entries : List (String × GoValue))
  | arr (items : List GoValue)
  | structV (name : String) (fields : List (String × FieldVal))

/-- Schematic model of the Go default verb used by the fallthrough cases
of formatMap and formatSlice (no claim depends on its exact text). -/
def goVerbV : GoValue → String
  | .goNil => "<nil>"
  | .str s => s
  | .mapSI entries => "map[" ++ toString entries.length ++ "]"
  | .arr items => "[" ++ toString items.length ++ "]"
  | .structV name _ => "\x7b" ++ name ++ "\x7d"

/-- formatMap from terminal.go. -/
def formatMap (opts : TerminalOptions) (profile : ColorProfile) (supC : Bool) :
    List (String × GoValue) → String → String
  | [], _ => ""
  | (key, value) :: rest, pre =>
    pre ++ ColorizeWithProfile key "accent" profile opts supC ++ ": "
      ++ (match value with
          | .mapSI m => "\n" ++ formatMap opts profile supC m (pre ++ "  ")
          | .arr items => "[" ++ toString items.length ++ " items]\n"
          | .str s =>
            goQuote (if s.length > MaxFieldLength
              then (takeChars (MaxFieldLength - 3) s) ++ "..." else s) ++ "\n"
          | .goNil => Muted "nil" opts supC ++ "\n"
          | v => goVerbV v ++ "\n")
      ++ formatMap opts profile supC rest pre
termination_by entries _ => sizeOf entries
decreasing_by
  all_goals simp
  all_goals omega

/-- The indexed loop body of formatSlice from terminal.go. -/
def formatSliceItems (opts : TerminalOptions) (profile : ColorProfile) (supC : Bool) :
    Nat → List GoValue → String
  | _, [] => ""
  | i, item :: rest =>
    "[" ++ toString i ++ "] "
      ++ (match item with
          | .mapSI m => "\x7b\n" ++ formatMap opts profile supC m "  " ++ "\x7d\n"
          | .str s => goQuote s ++ "\n"
          | .goNil => Muted "nil" opts supC ++ "\n"
          | v => goVerbV v ++ "\n")
      ++ formatSliceItems opts profile supC (i + 1) rest

/-- formatSlice from terminal.go. -/
def formatSlice (opts : TerminalOptions) (profile : ColorProfile) (supC : Bool)
    (items : List GoValue) : String :=
  Header "Array Data" opts supC ++ "\n" ++ "──────────\n\n"
    ++ formatSliceItems opts profile supC 0 items

/-- terminalFormatter from terminal.go. -/
structure terminalFormatter where
  options : TerminalOptions
  colorProfile : ColorProfile

/-- NewTerminal from terminal.go. -/
def NewTerminal (color : Bool) : terminalFormatter :=
  { options := { DefaultOptions with Color := color },
    colorProfile := DefaultColorProfile }

/-- NewTerminalWithOptions from terminal.go; the nil-options default is
modelled with Option. -/
def NewTerminalWithOptions (opts : Option TerminalOptions) : terminalFormatter :=
  { options := opts.getD DefaultOptions, colorProfile := DefaultColorProfile }

/-- Format from terminal.go. A nil interface value is checked first and
returns the empty byte string with a nil error, before the type switch;
the switch then dispatches maps, slices, strings, and records (for a
record input the reflection path succeeds, so the JSON fallback of the
default branch is never reached). The byte-slice result is modelled as a
String and the error as the Except error side. -/
def Format (f : terminalFormatter) (data : GoValue) (supC : Bool) :
    Except String String :=
  match data with
  | .goNil => .ok ""
  | .mapSI entries => .ok (formatMap f.options f.colorProfile supC entries "")
  | .arr items => .ok (formatSlice f.options f.colorProfile supC items)
  | .str s => .ok s
  | .structV name fields => .ok (formatStruct f.options supC name fields)

/-- Boolean test that every character of a string is plain ASCII (no code
point above 0x7E). -/
def isAsciiStr (s : String) : Bool :=
  s.data.all (fun c => c.toNat ≤ 0x7E)

/-- A successful goMapLookup returns the payload of an entry of the list
whose key is the searched key. -/
theorem goMapLookup_mem {key : String} {m : List (String × String × String)}
    {p : String × String} (h : goMapLookup key m = some p) :
    (key, p.1, p.2) ∈ m := by
  induction m with
  | nil => simp [goMapLookup] at h
  | cons hd tl ih =>
    obtain ⟨k, e, f⟩ := hd
    by_cases hk : key = k
    · subst hk
      simp [goMapLookup] at h
      simp [← h]
    · simp [goMapLookup, hk] at h
      exact List.mem_cons_of_mem _ (ih h)

/-- C8: with emoji disabled, GetSymbol (the alias of GetEmoji) returns
the plain-text fallback for a key present in the symbol table and the
sentinel for an unknown key, and in every case the result is ASCII-only
(no character above 0x7E); it is total by construction. -/
theorem getSymbol_ascii_when_emoji_disabled (key : String) (opts : TerminalOptions)
    (supE : Bool) (h : opts.Emoji = false) :
    (∀ ef : String × String, goMapLookup key getEmojiMap = some ef →
        GetSymbol key opts supE = ef.2) ∧
    (goMapLookup key getEmojiMap = none → GetSymbol key opts supE = "[?]") ∧
    isAsciiStr (GetSymbol key opts supE) = true := by
  have hall : ∀ q ∈ getEmojiMap, isAsciiStr q.2.2 = true := by decide
  refine ⟨?_, ?_, ?_⟩
  · intro ef hef
    obtain ⟨e, fb⟩ := ef
    unfold GetSymbol GetEmoji
    rw [hef, h]
    simp
  · intro hnone
    unfold GetSymbol GetEmoji
    rw [hnone]
  · cases hef : goMapLookup key getEmojiMap with
    | none =>
      have : GetSymbol key opts supE = "[?]" := by
        unfold GetSymbol GetEmoji
        rw [hef]
      rw [this]
      decide
    | some ef =>
      obtain ⟨e, fb⟩ := ef
      have : GetSymbol key opts supE = fb := by
        unfold GetSymbol GetEmoji
        rw [hef, h]
        simp
      rw [this]
      exact hall _ (goMapLookup_mem hef)

/-- Witness for C8 at the key success with emoji disabled. -/
theorem getSymbol_ascii_when_emoji_disabled_witness :
    ({ DefaultOptions with Emoji := false }).Emoji = false ∧
    GetSymbol "success" { DefaultOptions with Emoji := false } true = "[OK]" ∧
    isAsciiStr (GetSymbol "success" { DefaultOptions with Emoji := false } true) = true := by
  have h := getSymbol_ascii_when_emoji_disabled "success"
    { DefaultOptions with Emoji := false } true rfl
  exact ⟨rfl, h.1 ("✅", "[OK]") (by decide), h.2.2⟩

/-- C1 is violated by the code: a width below the 20 columns reserved for
progress bar metadata makes the track width negative, the computed filled
width negative, and strings.Repeat panics on the negative count (modelled
by none), so ProgressBar(50, 100, 10) does not produce a string. -/
theorem progressBar_panics_below_reserved_width :
    ProgressBarWithOptions 50 100 10 DefaultOptions = none := by
  unfold ProgressBarWithOptions ratTrunc goRepeat progressSpacing
  norm_num

/-- C2 is violated by the code: the percentage is only clamped from
above, so a negative current yields a negative filled width and
strings.Repeat panics (modelled by none) instead of rendering an
all-empty bar; the zero-total guard itself does hold. -/
theorem progressBar_negative_current_panics :
    ProgressBarWithOptions (-50) 100 60 DefaultOptions = none ∧
    ProgressBarWithOptions (-50) 0 60 DefaultOptions = some "" := by
  constructor
  · unfold ProgressBarWithOptions ratTrunc goRepeat progressSpacing
    norm_num
  · unfold ProgressBarWithOptions
    norm_num

/-- C3 is violated by the code: the two lists are the same label-to-value
map presented in the two iteration orders the randomized Go map range can
produce, and BarChartWithOptions renders them to different strings, so
the output is not deterministic for a fixed map, width and options. -/
theorem barChart_output_depends_on_iteration_order :
    ([("a", (1 : Int)), ("b", 2)]).Perm [("b", (2 : Int)), ("a", 1)] ∧
    BarChartWithOptions [("a", 1), ("b", 2)] 12 DefaultOptions
      ≠ BarChartWithOptions [("b", 2), ("a", 1)] 12 DefaultOptions := by
  have ha : barEntryLine 2 1 1 DefaultOptions ("a", 1) = some "a │░│ 1\n" := by
    unfold barEntryLine ratTrunc goRepeat
    norm_num [DefaultOptions]
    decide
  have hb : barEntryLine 2 1 1 DefaultOptions ("b", 2) = some "b │█│ 2\n" := by
    unfold barEntryLine ratTrunc goRepeat
    norm_num [DefaultOptions]
    decide
  have h1 : barMaxValue [("a", 1), ("b", 2)] = 2 := by decide
  have h1r : barMaxValue [("b", 2), ("a", 1)] = 2 := by decide
  have h2 : barMaxLabelLen [("a", 1), ("b", 2)] = 1 := by decide
  have h2r : barMaxLabelLen [("b", 2), ("a", 1)] = 1 := by decide
  have e1 : BarChartWithOptions [("a", 1), ("b", 2)] 12 DefaultOptions
      = some "a │░│ 1\nb │█│ 2" := by
    unfold BarChartWithOptions
    rw [h1, h2]
    norm_num [labelSpacing, List.mapM, List.mapM.loop, ha, hb]
    decide
  have e2 : BarChartWithOptions [("b", 2), ("a", 1)] 12 DefaultOptions
      = some "b │█│ 2\na │░│ 1" := by
    unfold BarChartWithOptions
    rw [h1r, h2r]
    norm_num [labelSpacing, List.mapM, List.mapM.loop, ha, hb]
    decide
  refine ⟨by decide, ?_⟩
  rw [e1, e2]
  decide

/-- C10: Format applied to a nil interface value returns the empty byte
string and a nil error, short-circuiting before the type switch and the
serialization fallback. -/
theorem format_nil_returns_ok_empty (f : terminalFormatter) (supC : Bool) :
    Format f GoValue.goNil supC = Except.ok "" := rfl

/-- Plain characters: printable ASCII that the Go quoting verb renders as
itself (no quote, no backslash). -/
def isPlainChar (c : Char) : Bool :=
  0x20 ≤ c.toNat && c.toNat ≤ 0x7E && c ≠ '"' && c ≠ '\\'

/-- Plain strings: every character plain. -/
def isPlainStr (s : String) : Bool :=
  s.data.all isPlainChar

/-- Two strings with the same character data are equal. -/
theorem stringDataExt {a b : String} (h : a.data = b.data) : a = b := by
  cases a
  cases b
  exact congrArg String.mk h

/-- Rebuilding a string from its character data is the identity. -/
theorem mk_data_eq (s : String) : String.mk s.data = s := by
  cases s
  rfl

/-- The Go quoting verb escapes a plain character to itself. -/
theorem goEscapeChar_plain {c : Char} (h : isPlainChar c = true) :
    goEscapeChar c = String.singleton c := by
  simp only [isPlainChar, Bool.and_eq_true, decide_eq_true_eq] at h
  obtain ⟨⟨⟨h1, h2⟩, h3⟩, h4⟩ := h
  have hn : c ≠ '\n' := fun he => by subst he; exact absurd h1 (by decide)
  have ht : c ≠ '\t' := fun he => by subst he; exact absurd h1 (by decide)
  have hr : c ≠ '\r' := fun he => by subst he; exact absurd h1 (by decide)
  unfold goEscapeChar
  rw [if_neg h3, if_neg h4, if_neg hn, if_neg ht, if_neg hr]

/-- The escaped body of a plain character list is the list itself. -/
theorem goQuoteBody_plain : ∀ l : List Char, l.all isPlainChar = true →
    goQuoteBody l = String.mk l := by
  intro l hl
  induction l with
  | nil => rfl
  | cons c cs ih =>
    rw [List.all_cons, Bool.and_eq_true] at hl
    rw [goQuoteBody, goEscapeChar_plain hl.1, ih hl.2]
    apply stringDataExt
    simp [String.singleton]

/-- C4: in the generic record formatter, a plain-ASCII string field
longer than 50 characters is rendered as its first 47 characters followed
by three dots, all inside quotes, and a string of length at most 50 is
rendered quoted and unmodified. -/
theorem formatStringValue_truncates_long_strings (s : String)
    (hplain : isPlainStr s = true) :
    (s.length > 50 → formatStringValue s = "\"" ++ takeChars 47 s ++ "...\"") ∧
    (s.length ≤ 50 → formatStringValue s = "\"" ++ s ++ "\"") := by
  constructor
  · intro hlen
    have hlen50 : s.length > MaxFieldLength := hlen
    unfold formatStringValue
    rw [if_pos hlen50]
    unfold goQuote
    have hplain47 : (takeChars (MaxFieldLength - 3) s ++ "...").data.all isPlainChar = true := by
      rw [String.data_append]
      rw [List.all_append, Bool.and_eq_true]
      refine ⟨?_, by decide⟩
      rw [List.all_eq_true]
      intro c hc
      have hcs : c ∈ s.data := List.take_subset _ _ (by simpa [takeChars] using hc)
      exact List.all_eq_true.mp hplain c hcs
    rw [goQuoteBody_plain _ hplain47, mk_data_eq]
    apply stringDataExt
    show ('"' :: ((takeChars (MaxFieldLength - 3) s ++ "...").data ++ ['"']))
      = _
    simp [takeChars, MaxFieldLength, String.data_append]
  · intro hlen
    have hlen50 : ¬ s.length > MaxFieldLength := by
      simp only [MaxFieldLength]
      omega
    unfold formatStringValue
    rw [if_neg hlen50]
    unfold goQuote
    rw [goQuoteBody_plain _ hplain, mk_data_eq]

/-- Witness for C4 at a 51-character plain string and a short string. -/
theorem formatStringValue_truncates_long_strings_witness :
    isPlainStr (String.mk (List.replicate 51 'a')) = true ∧
    (String.mk (List.replicate 51 'a')).length > 50 ∧
    formatStringValue (String.mk (List.replicate 51 'a'))
      = "\"" ++ takeChars 47 (String.mk (List.replicate 51 'a')) ++ "...\"" ∧
    isPlainStr "hi" = true ∧ ("hi" : String).length ≤ 50 ∧
    formatStringValue "hi" = "\"" ++ "hi" ++ "\"" :=
  ⟨by decide, by decide,
    (formatStringValue_truncates_long_strings _ (by decide)).1 (by decide),
    by decide, by decide,
    (formatStringValue_truncates_long_strings "hi" (by decide)).2 (by decide)⟩

/-- Mapping a cutoff test over an initial range where the cutoff covers
the whole range yields all filled cells. -/
theorem range_map_if_lt_all {α : Type} (f e : α) :
    ∀ n k : ℕ, n ≤ k →
      (List.range n).map (fun i => if i < k then f else e) = List.replicate n f := by
  intro n
  induction n with
  | zero => intro k _; rfl
  | succ n ih =>
    intro k hk
    rw [List.range_succ, List.map_append, ih k (by omega)]
    simp only [List.map_cons, List.map_nil]
    rw [if_pos (by omega), List.replicate_succ']

/-- Mapping a cutoff test over an initial range yields the filled cells
followed by the empty cells. -/
theorem range_map_if_lt {α : Type} (f e : α) :
    ∀ n k : ℕ, k ≤ n →
      (List.range n).map (fun i => if i < k then f else e)
        = List.replicate k f ++ List.replicate (n - k) e := by
  intro n
  induction n with
  | zero =>
    intro k hk
    have : k = 0 := by omega
    subst this
    rfl
  | succ n ih =>
    intro k hk
    by_cases hkn : k ≤ n
    · rw [List.range_succ, List.map_append, ih k hkn]
      simp only [List.map_cons, List.map_nil]
      rw [if_neg (by omega)]
      have : n + 1 - k = (n - k) + 1 := by omega
      rw [this, List.replicate_succ' (n - k), List.append_assoc]
    · have : k = n + 1 := by omega
      subst this
      rw [range_map_if_lt_all f e (n + 1) (n + 1) le_rfl]
      simp

/-- C7: for a confidence in the unit interval, CreateConfidenceBar
renders exactly 10 cells with floor(confidence times 10) filled cells
followed by empty cells; when emoji output is active (emoji enabled and
supported) the glyphs are the filled and shaded blocks with no brackets,
and in text mode the glyphs are the hash and dash wrapped in brackets, an
interior of exactly 10 cells. -/
theorem createConfidenceBar_spec (conf : ℚ) (opts : TerminalOptions) (supE : Bool)
    (h0 : 0 ≤ conf) (h1 : conf ≤ 1) :
    CreateConfidenceBar conf opts supE
      = (if opts.Emoji then "" else "[")
        ++ String.mk
            (List.replicate (⌊conf * 10⌋).toNat (if opts.Emoji && supE then '█' else '#')
              ++ List.replicate (10 - (⌊conf * 10⌋).toNat)
                  (if opts.Emoji && supE then '░' else '-'))
        ++ (if opts.Emoji then "" else "]")
    ∧ (CreateConfidenceBar conf opts supE).length = (if opts.Emoji then 10 else 12) := by
  have hq0 : (0 : ℚ) ≤ conf * 10 := by positivity
  have hfl0 : 0 ≤ ⌊conf * 10⌋ := Int.floor_nonneg.mpr hq0
  have hq10 : conf * 10 ≤ 10 := by nlinarith
  have hfl10 : ⌊conf * 10⌋ ≤ 10 := by
    calc ⌊conf * 10⌋ ≤ ⌊(10 : ℚ)⌋ := Int.floor_le_floor hq10
    _ = 10 := by norm_num
  have hk10 : (⌊conf * 10⌋).toNat ≤ 10 := by omega
  have hcast : (conf * (ConfidenceBarLength : ℚ)) = conf * 10 := by
    norm_num [ConfidenceBarLength]
  have htr : ratTrunc (conf * (ConfidenceBarLength : ℚ)) = ((⌊conf * 10⌋).toNat : ℤ) := by
    unfold ratTrunc
    rw [hcast, if_neg (not_lt.mpr hq0), Int.toNat_of_nonneg hfl0]
  have hcore : (List.range ConfidenceBarLength).map
        (fun i : ℕ => if (i : ℤ) < ((⌊conf * 10⌋).toNat : ℤ)
          then (if opts.Emoji && supE then '█' else '#')
          else (if opts.Emoji && supE then '░' else '-'))
      = List.replicate (⌊conf * 10⌋).toNat (if opts.Emoji && supE then '█' else '#')
        ++ List.replicate (10 - (⌊conf * 10⌋).toNat) (if opts.Emoji && supE then '░' else '-') := by
    have hcond : (fun i : ℕ => if (i : ℤ) < ((⌊conf * 10⌋).toNat : ℤ)
          then (if opts.Emoji && supE then '█' else '#')
          else (if opts.Emoji && supE then '░' else '-'))
        = (fun i : ℕ => if i < (⌊conf * 10⌋).toNat
          then (if opts.Emoji && supE then '█' else '#')
          else (if opts.Emoji && supE then '░' else '-')) := by
      funext i
      congr 1
      simp
    rw [hcond]
    exact range_map_if_lt _ _ ConfidenceBarLength (⌊conf * 10⌋).toNat hk10
  have heq : CreateConfidenceBar conf opts supE
      = (if opts.Emoji then "" else "[")
        ++ String.mk
            (List.replicate (⌊conf * 10⌋).toNat (if opts.Emoji && supE then '█' else '#')
              ++ List.replicate (10 - (⌊conf * 10⌋).toNat)
                  (if opts.Emoji && supE then '░' else '-'))
        ++ (if opts.Emoji then "" else "]") := by
    simp only [CreateConfidenceBar]
    rw [htr, hcore]
    cases h : opts.Emoji <;> simp [h]
  refine ⟨heq, ?_⟩
  rw [heq]
  have hlenmk : (String.mk
      (List.replicate (⌊conf * 10⌋).toNat (if opts.Emoji && supE then '█' else '#')
        ++ List.replicate (10 - (⌊conf * 10⌋).toNat)
            (if opts.Emoji && supE then '░' else '-'))).length = 10 := by
    show (List.replicate (⌊conf * 10⌋).toNat (if opts.Emoji && supE then '█' else '#')
        ++ List.replicate (10 - (⌊conf * 10⌋).toNat)
            (if opts.Emoji && supE then '░' else '-')).length = 10
    rw [List.length_append, List.length_replicate, List.length_replicate]
    omega
  have hbl : ("[" : String).length = 1 := rfl
  have hbr : ("]" : String).length = 1 := rfl
  cases h : opts.Emoji <;> simp [hlenmk, String.length_append, h, hbl, hbr] <;> omega

/-- Witness for C7 at confidence 1 in text mode: ten filled cells inside
brackets. -/
theorem createConfidenceBar_spec_witness :
    (0 : ℚ) ≤ 1 ∧ (1 : ℚ) ≤ 1 ∧
    CreateConfidenceBar 1 { DefaultOptions with Emoji := false } true = "[##########]" ∧
    (CreateConfidenceBar 1 { DefaultOptions with Emoji := false } true).length = 12 := by
  have h := createConfidenceBar_spec 1 { DefaultOptions with Emoji := false } true
    (by norm_num) le_rfl
  have hfl : (⌊(1 : ℚ) * 10⌋).toNat = 10 := by
    norm_num
    decide
  refine ⟨by norm_num, le_rfl, ?_, ?_⟩
  · rw [h.1, hfl]
    decide
  · rw [h.2]
    decide

/-- Erasure of every caller-set Last flag in a tree item forest (set to
false everywhere); two forests with the same erasure differ at most in
their Last fields. -/
def scrubItems : List TreeItem → List TreeItem
  | [] => []
  | item :: rest =>
    { Label := item.Label, Value := item.Value,
      Children := scrubItems item.Children, Last := false } :: scrubItems rest
termination_by items => sizeOf items
decreasing_by
  all_goals cases item
  all_goals simp
  all_goals omega

/-- Erasing Last flags preserves emptiness. -/
theorem scrubItems_isEmpty (l : List TreeItem) :
    (scrubItems l).isEmpty = l.isEmpty := by
  cases l <;> simp [scrubItems]

/-- The tree renderer reads the position of an item among its siblings,
never the stored Last flag, so erasing the flags does not change the
rendering. -/
theorem renderTreeItems_scrub (items : List TreeItem) (pre : String) :
    renderTreeItems (scrubItems items) pre = renderTreeItems items pre := by
  induction items, pre using renderTreeItems.induct with
  | case1 pre => simp [scrubItems]
  | case2 item rest pre a1 a2 ihc ihr =>
    rw [scrubItems, renderTreeItems, renderTreeItems]
    simp only [scrubItems_isEmpty]
    rw [ihr]
    by_cases hc : item.Children.isEmpty = true
    · simp [hc]
    · unfold a2 a1 at ihc
      simp only [dite_eq_ite] at ihc
      rw [if_neg hc, if_neg hc, ihc hc]

/-- C9: TreeView output does not depend on the caller-set Last field (nor
on the options, which the renderer ignores): any two item forests that
agree after erasing every Last flag render identically, because the
renderer recomputes last-sibling status from position. -/
theorem treeView_ignores_last_field (a b : List TreeItem)
    (o1 o2 : TerminalOptions) (h : scrubItems a = scrubItems b) :
    TreeViewWithOptions a o1 = TreeViewWithOptions b o2 := by
  unfold TreeViewWithOptions
  rw [← renderTreeItems_scrub a "", ← renderTreeItems_scrub b "", h]

/-- Witness for C9: two single-item forests differing only in the Last
flag render identically. -/
theorem treeView_ignores_last_field_witness :
    scrubItems [{ Label := "x", Value := "v", Children := [], Last := true }]
      = scrubItems [{ Label := "x", Value := "v", Children := [], Last := false }] ∧
    TreeViewWithOptions [{ Label := "x", Value := "v", Children := [], Last := true }] DefaultOptions
      = TreeViewWithOptions [{ Label := "x", Value := "v", Children := [], Last := false }] DefaultOptions := by
  have h : scrubItems [{ Label := "x", Value := "v", Children := [], Last := true }]
      = scrubItems [{ Label := "x", Value := "v", Children := [], Last := false }] := by
    simp [scrubItems]
  exact ⟨h, treeView_ignores_last_field _ _ _ _ h⟩

/-- The newline split of a character list is never the empty list of
pieces. -/
theorem splitChars_ne_nil (l : List Char) : splitChars l ≠ [] := by
  cases l with
  | nil => simp [splitChars]
  | cons c cs =>
    cases h : splitChars cs with
    | nil => simp [splitChars, splitCharsAux, h]
    | cons r rs =>
      simp only [splitChars, splitCharsAux, h]
      split <;> simp

/-- The newline split of a string is never the empty list of pieces. -/
theorem splitNL_ne_nil (s : String) : splitNL s ≠ [] := by
  unfold splitNL
  simp [splitChars_ne_nil]

/-- The length of a repeated character string. -/
theorem repChar_length (c : Char) (n : Nat) : (repChar c n).length = n := by
  show (List.replicate n c).length = n
  simp

/-- The initial value of the maximum-line-length scan bounds the result
from below. -/
theorem maxLineLen_init_le : ∀ (lines : List String) (init : Nat),
    init ≤ maxLineLen init lines := by
  intro lines
  induction lines with
  | nil => intro init; simp [maxLineLen]
  | cons l ls ih =>
    intro init
    have h2 := ih (if l.length > init then l.length else init)
    calc init ≤ (if l.length > init then l.length else init) := by split <;> omega
    _ ≤ _ := h2

/-- Every line of the scanned list is bounded by the maximum-line-length
scan. -/
theorem le_maxLineLen_of_mem : ∀ (lines : List String) (init : Nat) (l : String),
    l ∈ lines → l.length ≤ maxLineLen init lines := by
  intro lines
  induction lines with
  | nil => intro init l hl; simp at hl
  | cons x xs ih =>
    intro init l hl
    rcases List.mem_cons.mp hl with h | h
    · subst h
      calc l.length ≤ (if l.length > init then l.length else init) := by split <;> omega
      _ ≤ _ := maxLineLen_init_le xs _
    · exact ih _ l h

/-- Prepending to the fold of string concatenation. -/
theorem join_foldl_append (l : List String) :
    ∀ x y : String, l.foldl (· ++ ·) (x ++ y) = x ++ l.foldl (· ++ ·) y := by
  induction l with
  | nil => intro x y; rfl
  | cons a as ih =>
    intro x y
    show as.foldl (· ++ ·) ((x ++ y) ++ a) = x ++ as.foldl (· ++ ·) (y ++ a)
    rw [String.append_assoc, ih]

/-- Unfolding of String.join on a cons cell. -/
theorem string_join_cons (a : String) (l : List String) :
    String.join (a :: l) = a ++ String.join l := by
  show l.foldl (· ++ ·) ("" ++ a) = a ++ l.foldl (· ++ ·) ""
  have h1 : ("" ++ a) = (a ++ "") := by simp
  rw [h1, join_foldl_append]

/-- A join of newline-terminated rows followed by a final row is the
newline-separated join of all the rows. -/
theorem join_rows_unlines1 : ∀ (rs : List String) (lastRow : String),
    String.join (rs.map (fun r => r ++ "\n")) ++ lastRow = unlines1 (rs ++ [lastRow]) := by
  intro rs
  induction rs with
  | nil =>
    intro lastRow
    show String.join [] ++ lastRow = unlines1 [lastRow]
    simp [String.join, unlines1]
  | cons r rs ih =>
    intro lastRow
    rw [List.map_cons, string_join_cons]
    have hne : rs ++ [lastRow] ≠ [] := by simp
    have : unlines1 ((r :: rs) ++ [lastRow]) = r ++ "\n" ++ unlines1 (rs ++ [lastRow]) := by
      cases h : rs ++ [lastRow] with
      | nil => exact absurd h hne
      | cons y ys => simp [unlines1, h]
    rw [this, ← ih lastRow, String.append_assoc, String.append_assoc]

/-- C6: for a non-empty content string and no title, Box draws the
single-weight border: the output is the rows joined by newlines, where
the top and bottom border rows are exactly the longest content line
length plus 2 padding plus 2 corner glyphs wide, and every content line
is right-padded with spaces to the interior width before the closing
border character, giving every row the same width. -/
theorem box_untitled_shape (content : String) (h : content ≠ "") :
    Box "" content
      = unlines1 (("┌" ++ repChar '─' (maxLineLen 0 (splitNL content) + 2) ++ "┐")
          :: (splitNL content).map (fun l =>
              "│ " ++ l ++ repChar ' ' (maxLineLen 0 (splitNL content) - l.length) ++ " │")
          ++ ["└" ++ repChar '─' (maxLineLen 0 (splitNL content) + 2) ++ "┘"])
    ∧ ("┌" ++ repChar '─' (maxLineLen 0 (splitNL content) + 2) ++ "┐").length
        = maxLineLen 0 (splitNL content) + 4
    ∧ ("└" ++ repChar '─' (maxLineLen 0 (splitNL content) + 2) ++ "┘").length
        = maxLineLen 0 (splitNL content) + 4
    ∧ ∀ l ∈ splitNL content,
        ("│ " ++ l ++ repChar ' ' (maxLineLen 0 (splitNL content) - l.length) ++ " │").length
          = maxLineLen 0 (splitNL content) + 4 := by
  have hbox : Box "" content = simpleBox content := rfl
  have hne : (splitNL content).isEmpty = false := by
    cases hs : splitNL content with
    | nil => exact absurd hs (splitNL_ne_nil content)
    | cons a as => rfl
  refine ⟨?_, ?_, ?_, ?_⟩
  · rw [hbox]
    simp only [simpleBox, borderPadding]
    rw [hne]
    simp only [Bool.false_eq_true, if_false]
    rw [← join_rows_unlines1, List.map_cons, string_join_cons, List.map_map]
    have hrow : ((fun r => r ++ "\n")
          ∘ (fun l => "│ " ++ l ++ repChar ' ' (maxLineLen 0 (splitNL content) - l.length) ++ " │"))
        = (fun l => "│ " ++ l ++ repChar ' ' (maxLineLen 0 (splitNL content) - l.length) ++ " │\n") := by
      funext l
      apply stringDataExt
      simp [String.data_append]
    rw [hrow]
    apply stringDataExt
    simp [String.data_append]
  · rw [String.length_append, String.length_append, repChar_length]
    have h1 : ("┌" : String).length = 1 := rfl
    have h2 : ("┐" : String).length = 1 := rfl
    rw [h1, h2]
    omega
  · rw [String.length_append, String.length_append, repChar_length]
    have h1 : ("└" : String).length = 1 := rfl
    have h2 : ("┘" : String).length = 1 := rfl
    rw [h1, h2]
    omega
  · intro l hl
    have hle : l.length ≤ maxLineLen 0 (splitNL content) := le_maxLineLen_of_mem _ 0 l hl
    rw [String.length_append, String.length_append, String.length_append, repChar_length]
    have h2 : ("│ " : String).length = 2 := rfl
    have h3 : (" │" : String).length = 2 := rfl
    rw [h2, h3]
    omega

/-- Witness for C6 at the one-character content. -/
theorem box_untitled_shape_witness :
    ("x" : String) ≠ "" ∧ Box "" "x" = "┌───┐\n│ x │\n└───┘" := by
  have h := (box_untitled_shape "x" (by decide)).1
  refine ⟨by decide, ?_⟩
  rw [h]
  decide

/-- An indexed read of a list after one width-bump pass: the width at a
column is maxed with the cell at that column when the row has one, and
unchanged otherwise; columns beyond the width list stay absent. -/
theorem bumpWidths_get? : ∀ (ws : List Nat) (row : List String) (i : Nat),
    (bumpWidths ws row).get? i
      = (ws.get? i).map (fun w => match row.get? i with
          | some c => max w c.length
          | none => w) := by
  intro ws
  induction ws with
  | nil => intro row i; cases row <;> simp [bumpWidths]
  | cons w ws ih =>
    intro row i
    cases row with
    | nil => simp [bumpWidths]
    | cons c cs =>
      cases i with
      | zero =>
        show some (if c.length > w then c.length else w) = some (max w c.length)
        congr 1
        rw [Nat.max_def]
        split <;> (split <;> omega)
      | succ n =>
        show (bumpWidths ws cs).get? n = _
        rw [ih cs n]
        rfl

/-- An indexed read of the width list after folding every row. -/
theorem tableColWidths_fold_get? : ∀ (rows : List (List String)) (ws : List Nat)
    (i : Nat) (w : Nat), ws.get? i = some w →
    (rows.foldl bumpWidths ws).get? i
      = some (rows.foldl (fun m row => match row.get? i with
          | some c => max m c.length
          | none => m) w) := by
  intro rows
  induction rows with
  | nil => intro ws i w h; simpa using h
  | cons r rs ih =>
    intro ws i w h
    rw [List.foldl_cons, List.foldl_cons]
    apply ih
    rw [bumpWidths_get?, h]
    rfl

/-- Reading a list at an in-bounds index with a default returns the
element the optional read returns. -/
theorem getD_of_get?_some {α : Type} (d : α) : ∀ (l : List α) (i : Nat) (v : α),
    l.get? i = some v → l.getD i d = v := by
  intro l
  induction l with
  | nil => intro i v h; simp at h
  | cons a as ih =>
    intro i v h
    cases i with
    | zero => simp at h; simpa [List.getD] using h
    | succ n => exact ih n v h

/-- An in-bounds index has an optional read equal to the defaulted
read. -/
theorem get?_eq_some_getD {α : Type} (d : α) : ∀ (l : List α) (i : Nat),
    i < l.length → l.get? i = some (l.getD i d) := by
  intro l
  induction l with
  | nil => intro i h; simp at h
  | cons a as ih =>
    intro i h
    cases i with
    | zero => rfl
    | succ n => exact ih n (by simpa using h)

/-- One bump pass ignores the cells of a row beyond the column count. -/
theorem bumpWidths_take : ∀ (ws : List Nat) (row : List String),
    bumpWidths ws (row.take ws.length) = bumpWidths ws row := by
  intro ws
  induction ws with
  | nil => intro row; cases row <;> rfl
  | cons w ws ih =>
    intro row
    cases row with
    | nil => rfl
    | cons c cs =>
      show (if c.length > w then c.length else w) :: bumpWidths ws (cs.take ws.length)
        = (if c.length > w then c.length else w) :: bumpWidths ws cs
      rw [ih cs]

/-- One bump pass preserves the number of columns. -/
theorem bumpWidths_length : ∀ (ws : List Nat) (row : List String),
    (bumpWidths ws row).length = ws.length := by
  intro ws
  induction ws with
  | nil => intro row; cases row <;> rfl
  | cons w ws ih =>
    intro row
    cases row with
    | nil => rfl
    | cons c cs => simp [bumpWidths, ih cs]

/-- The width list has exactly one width per header. -/
theorem tableColWidths_length (headers : List String) (rows : List (List String)) :
    (tableColWidths headers rows).length = headers.length := by
  unfold tableColWidths
  suffices h : ∀ (rows : List (List String)) (ws : List Nat),
      (rows.foldl bumpWidths ws).length = ws.length by
    rw [h rows _]
    simp
  intro rows
  induction rows with
  | nil => intro ws; rfl
  | cons r rs ih =>
    intro ws
    rw [List.foldl_cons, ih, bumpWidths_length]

/-- Truncating every row to the header count does not change the
computed column widths. -/
theorem tableColWidths_take (headers : List String) (rows : List (List String)) :
    tableColWidths headers (rows.map (fun r => r.take headers.length))
      = tableColWidths headers rows := by
  unfold tableColWidths
  suffices h : ∀ (rows : List (List String)) (ws : List Nat), ws.length = headers.length →
      (rows.map (fun r => r.take headers.length)).foldl bumpWidths ws
        = rows.foldl bumpWidths ws by
    exact h rows _ (by simp)
  intro rows
  induction rows with
  | nil => intro ws _; rfl
  | cons r rs ih =>
    intro ws hws
    rw [List.map_cons, List.foldl_cons, List.foldl_cons]
    have h1 : r.take headers.length = r.take ws.length := by rw [hws]
    rw [h1, bumpWidths_take]
    exact ih _ (by rw [bumpWidths_length, hws])

/-- The cell renderer ignores the cells of a row beyond the column
count (the Go index guard). -/
theorem renderCells_take : ∀ (ws : List Nat) (row : List String),
    renderCells ws (row.take ws.length) = renderCells ws row := by
  intro ws
  induction ws with
  | nil => intro row; cases row <;> rfl
  | cons w ws ih =>
    intro row
    cases row with
    | nil => rfl
    | cons c cs =>
      show " " ++ c ++ repChar ' ' (w - c.length) ++ " │" ++ renderCells ws (cs.take ws.length)
        = " " ++ c ++ repChar ' ' (w - c.length) ++ " │" ++ renderCells ws cs
      rw [ih cs]

/-- C5: each column width of TableWithOptions is the header length maxed
with every cell present in that column (rows shorter than the column
index contribute nothing, so ragged rows are safe), and cells beyond the
header count affect neither the widths nor the rendered output:
truncating every row to the header count renders the same table. -/
theorem table_column_widths_and_ragged_rows (headers : List String)
    (rows : List (List String)) (opts : TerminalOptions) (i : Nat)
    (hi : i < headers.length) :
    (tableColWidths headers rows).getD i 0
      = rows.foldl (fun m row => match row.get? i with
          | some c => max m c.length
          | none => m) ((headers.getD i "").length)
    ∧ TableWithOptions headers rows opts
        = TableWithOptions headers (rows.map (fun r => r.take headers.length)) opts := by
  constructor
  · have hmap : (headers.map String.length).get? i = some ((headers.getD i "").length) := by
      rw [List.get?_map, get?_eq_some_getD "" headers i hi]
      rfl
    have h := tableColWidths_fold_get? rows (headers.map String.length) i _ hmap
    exact getD_of_get?_some 0 _ i _ h
  · unfold TableWithOptions
    cases hh : headers.isEmpty with
    | true => rfl
    | false =>
      simp only [Bool.false_eq_true, if_false]
      rw [tableColWidths_take, List.map_map]
      have hlen : (tableColWidths headers rows).length = headers.length :=
        tableColWidths_length headers rows
      have hmapeq : ((fun row => "│" ++ renderCells (tableColWidths headers rows) row ++ "\n")
            ∘ (fun r : List String => r.take headers.length))
          = (fun row => "│" ++ renderCells (tableColWidths headers rows) row ++ "\n") := by
        funext row
        show "│" ++ renderCells (tableColWidths headers rows) (row.take headers.length) ++ "\n" = _
        rw [← hlen, renderCells_take]
      rw [hmapeq]

/-- Witness for C5 at a two-column table with one ragged, over-long
row. -/
theorem table_column_widths_and_ragged_rows_witness :
    0 < (["A", "BB"] : List String).length ∧
    ((tableColWidths ["A", "BB"] [["1", "222", "xx"]]).getD 0 0
      = [["1", "222", "xx"]].foldl (fun m row => match row.get? 0 with
          | some c => max m c.length
          | none => m) (((["A", "BB"] : List String).getD 0 "").length)
    ∧ TableWithOptions ["A", "BB"] [["1", "222", "xx"]] DefaultOptions
        = TableWithOptions ["A", "BB"]
            ([["1", "222", "xx"]].map (fun r => r.take (["A", "BB"] : List String).length))
            DefaultOptions) :=
  ⟨by decide, table_column_widths_and_ragged_rows ["A", "BB"] [["1", "222", "xx"]]
    DefaultOptions 0 (by decide)⟩

end Termfmt
